import Mathlib

/-!
Verification of the nanoclaw container-orchestration core against its
natural-language specification.

The development shallowly embeds the mount-security gate, the allowlist
cache, the configuration parsing, the group-queue scheduling/retry
behaviour, the message-piping path, the IPC file writer and the
per-group message-processing function, and proves the specified
properties about the embedded definitions.

Filesystem effects are modelled by explicit oracles (a `realpath`
resolution function, an allowlist file state) and module-level caches by
explicit state records, so every definition is executable.
-/

namespace NanoClaw

/-- Substring containment on character lists: `pat` occurs contiguously in the list. -/
def listContainsSub (pat : List Char) : List Char → Bool
  | [] => pat.isEmpty
  | c :: rest => pat.isPrefixOf (c :: rest) || listContainsSub pat rest

/-- Substring containment on strings (model of JS String.includes). -/
def strContainsSub (s pat : String) : Bool :=
  listContainsSub pat.data s.data

/-- Split a character list on a separator character; mirrors String.split semantics
with empty segments preserved. -/
def splitOnChar (sep : Char) : List Char → List (List Char)
  | [] => [[]]
  | c :: rest =>
    if c = sep then [] :: splitOnChar sep rest
    else
      match splitOnChar sep rest with
      | [] => [[c]]
      | seg :: segs => (c :: seg) :: segs

/-- Slash-separated segments of a string (kernel-reducible model of splitting on a slash). -/
def slashSegments (s : String) : List String :=
  (splitOnChar '/' s.data).map (fun seg => String.mk seg)

/-- Kernel-reducible whitespace trim on character lists. -/
def trimChars (cs : List Char) : List Char :=
  ((cs.dropWhile Char.isWhitespace).reverse.dropWhile Char.isWhitespace).reverse

/-- Kernel-reducible model of the JS String.trim used on container paths. -/
def jsTrim (s : String) : String :=
  String.mk (trimChars s.data)

/-- Kernel-reducible startsWith on strings. -/
def strStartsWith (s pre : String) : Bool :=
  pre.data.isPrefixOf s.data

/-- Model of Node path.basename for POSIX paths: the last nonempty slash-separated component. -/
def basename (p : String) : String :=
  match (splitOnChar '/' p.data).reverse.dropWhile List.isEmpty with
  | [] => ""
  | seg :: _ => String.mk seg

/-- Mount request as issued by a caller: host path, container-relative path, readonly flag. -/
structure MountRequest where
  hostPath : String
  containerPath : String
  readonly : Bool
deriving Repr, DecidableEq

/-- One allowed root of the mount allowlist. -/
structure AllowedRoot where
  path : String
  allowReadWrite : Bool
  description : String
deriving Repr, DecidableEq

/-- The mount allowlist document. -/
structure MountAllowlist where
  allowedRoots : List AllowedRoot
  blockedPatterns : List String
  nonMainReadOnly : Bool
deriving Repr, DecidableEq

/-- Result of validating the container-relative side of one mount request. -/
structure MountValidationResult where
  allowed : Bool
  reason : Option String
  resolvedContainerPath : Option String
deriving Repr, DecidableEq

/-- Modelled from the spec: the repository file mount-security.ts is not under
src (only its unit tests are). Per spec section 4.3, validateMount(request, isMain)
validates the container-relative path: it must be non-empty after trimming, must
not begin with a slash, and must contain no dot-dot path segment; an empty path
falls back to the basename of the host path. It returns either a denial with a
human-readable reason or an acceptance carrying the resolved relative path. -/
def validateMount (req : MountRequest) (isMain : Bool) : MountValidationResult :=
  if req.containerPath = "" then
    { allowed := true, reason := none,
      resolvedContainerPath := some (basename req.hostPath) }
  else if jsTrim req.containerPath = "" then
    { allowed := false,
      reason := some "Invalid container path: must be non-empty",
      resolvedContainerPath := none }
  else if strStartsWith (jsTrim req.containerPath) "/" then
    { allowed := false,
      reason := some "Invalid container path: must be relative",
      resolvedContainerPath := none }
  else if (slashSegments (jsTrim req.containerPath)).contains ".." then
    { allowed := false,
      reason := some "Invalid container path: must not contain .. segments",
      resolvedContainerPath := none }
  else
    { allowed := true, reason := none,
      resolvedContainerPath := some (jsTrim req.containerPath) }

/-- Modelled from the spec: which allowed root (if any) contains the resolved
real host path; containment is checked against the real (symlink-followed) path
of the root, supplied by the realpath oracle. -/
def matchedRoot (al : MountAllowlist) (realpath : String → Option String)
    (realHostPath : String) : Option AllowedRoot :=
  al.allowedRoots.find? (fun root =>
    match realpath root.path with
    | none => false
    | some rr => realHostPath == rr || strStartsWith realHostPath (rr ++ "/"))

/-- An accepted additional mount after validation. -/
structure ResolvedMount where
  hostPath : String
  containerPath : String
  readonly : Bool
deriving Repr, DecidableEq

/-- Modelled from the spec (section 4.3): validate a single additional mount
request. Resolve the real host path (none means it does not exist, hence
reject); reject if the real path textually contains any blocked pattern or is
not contained in any allowed root; reject if validateMount rejects the
container side. Force read-only when the caller requested it, when the matched
root disallows read-write, or when the group is non-admin and the allowlist
has nonMainReadOnly set. -/
def validateOneMount (al : MountAllowlist) (realpath : String → Option String)
    (req : MountRequest) (isMain : Bool) : Option ResolvedMount :=
  match realpath req.hostPath with
  | none => none
  | some rp =>
    if al.blockedPatterns.any (fun pat => strContainsSub rp pat) then none
    else
      match matchedRoot al realpath rp with
      | none => none
      | some root =>
        if (validateMount req isMain).allowed then
          match (validateMount req isMain).resolvedContainerPath with
          | some rcp =>
            some { hostPath := rp,
                   containerPath := "/workspace/extra/" ++ rcp,
                   readonly := req.readonly || !root.allowReadWrite
                     || (!isMain && al.nonMainReadOnly) }
          | none => none
        else none

/-- Modelled from the spec (section 4.3 and invariant (e)): the allowlist
argument is the result of loadMountAllowlist; when it is none every mount for
every group is denied (fail closed). Otherwise each request is validated
individually and failing mounts are dropped; the accepted subset is returned. -/
def validateAdditionalMounts (allowlist : Option MountAllowlist)
    (realpath : String → Option String) (mounts : List MountRequest)
    (groupFolder : String) (isMain : Bool) : List ResolvedMount :=
  match allowlist with
  | none => []
  | some al => mounts.filterMap (fun m => validateOneMount al realpath m isMain)

/-- State of the allowlist file on disk, as observed by a single load attempt:
missing file, unparseable JSON, structurally invalid document (wrong field
types), or a structurally valid document. -/
inductive AllowlistFile where
  | absent
  | unparseable
  | invalidStructure
  | valid (doc : MountAllowlist)
deriving Repr, DecidableEq

/-- Built-in default blocked substrings (credential-like file and directory
names), always merged with the user-supplied patterns on a successful load. -/
def DEFAULT_BLOCKED_PATTERNS : List String :=
  [".ssh", ".env", ".aws", ".gnupg", "credentials", "secrets", "id_rsa", "token"]

/-- Modelled from the spec: a single uncached load of the allowlist file.
Missing file, unparseable JSON and a structurally invalid document all produce
none; a valid document is returned with the default blocked patterns merged in. -/
def loadAllowlistOnce : AllowlistFile → Option MountAllowlist
  | .valid doc =>
    some { doc with blockedPatterns := DEFAULT_BLOCKED_PATTERNS ++ doc.blockedPatterns }
  | _ => none

/-- Module-level cache of the allowlist load (success or failure), explicit here. -/
structure AllowlistCache where
  attempted : Bool
  cached : Option MountAllowlist
deriving Repr, DecidableEq

/-- Cache state at process start: no load attempted yet. -/
def initialAllowlistCache : AllowlistCache :=
  { attempted := false, cached := none }

/-- Outcome of one loadMountAllowlist call: the returned value, the cache state
after the call, and whether the call touched the filesystem. -/
structure AllowlistLoadOutcome where
  result : Option MountAllowlist
  state : AllowlistCache
  fsAccessed : Bool
deriving Repr, DecidableEq

/-- Modelled from the spec: loadMountAllowlist reads the allowlist file once
and caches the result (success or null) for the process lifetime; a repeated
call returns the cached value without touching the filesystem. -/
def loadMountAllowlist (file : AllowlistFile) (st : AllowlistCache) :
    AllowlistLoadOutcome :=
  if st.attempted then
    { result := st.cached, state := st, fsAccessed := false }
  else
    let r := loadAllowlistOnce file
    { result := r, state := { attempted := true, cached := r }, fsAccessed := true }

/-- Model of JS parseInt(s, 10): skip leading whitespace, take an optional
sign, then the longest leading run of decimal digits; NaN (none) when that run
is empty. Trailing garbage is ignored. -/
def jsParseInt (s : String) : Option Int :=
  let cs := s.data.dropWhile Char.isWhitespace
  match cs with
  | '-' :: rest =>
    let ds := rest.takeWhile Char.isDigit
    if ds.isEmpty then none
    else some (-(Int.ofNat (ds.foldl (fun acc c => acc * 10 + (c.toNat - 48)) 0)))
  | '+' :: rest =>
    let ds := rest.takeWhile Char.isDigit
    if ds.isEmpty then none
    else some (Int.ofNat (ds.foldl (fun acc c => acc * 10 + (c.toNat - 48)) 0))
  | _ =>
    let ds := cs.takeWhile Char.isDigit
    if ds.isEmpty then none
    else some (Int.ofNat (ds.foldl (fun acc c => acc * 10 + (c.toNat - 48)) 0))

/-- Translation of the config constant MAX_CONCURRENT_CONTAINERS:
Math.max(1, parseInt(process.env.MAX_CONCURRENT_CONTAINERS or the string 5,
base 10) or 5). An unset or empty environment variable is falsy and falls
back to the string 5; a NaN or zero parse result is falsy and falls back to
the number 5. -/
def maxConcurrentContainers (env : Option String) : Int :=
  let s := match env with
    | none => "5"
    | some e => if e = "" then "5" else e
  let v := match jsParseInt s with
    | none => (5 : Int)
    | some n => if n = 0 then 5 else n
  max 1 v

/-- Modelled from the spec: group-queue scheduling state. The GroupQueue
implementation (group-queue.ts) is not under src (only its tests and callers
are); per spec sections 4.1 and 5 the queue keeps pending check entries and
the set of groups with an active sandboxed process, guarded by a global
counting semaphore of size MAX_CONCURRENT_CONTAINERS. -/
structure QueueState where
  pending : List String
  running : List String
deriving Repr, DecidableEq

/-- Modelled from the spec: one scheduling transition. Work may be enqueued at
any time; a group starts only when a semaphore slot is free (strictly fewer
running processes than the cap) and the group is not already running; a
finishing group frees its slot. -/
inductive QueueStep (cap : Nat) : QueueState → QueueState → Prop
  | enqueue (s : QueueState) (g : String) :
      QueueStep cap s { s with pending := s.pending ++ [g] }
  | start (s : QueueState) (g : String)
      (hmem : g ∈ s.pending)
      (hnot : g ∉ s.running)
      (hcap : s.running.length < cap) :
      QueueStep cap s { pending := s.pending.erase g, running := g :: s.running }
  | finish (s : QueueState) (g : String) (hmem : g ∈ s.running) :
      QueueStep cap s { s with running := s.running.erase g }

/-- Initial queue state: nothing pending, nothing running. -/
def initQueue : QueueState := ⟨[], []⟩

/-- Reachability of a queue state from the initial state under queue steps. -/
def QueueReachable (cap : Nat) : QueueState → Prop :=
  Relation.ReflTransGen (QueueStep cap) initQueue

/-- Modelled from the spec: maximum number of retry attempts after failures of
the processing callback for one group. -/
def MAX_RETRIES : Nat := 5

/-- Modelled from the spec: base backoff delay in milliseconds (five seconds). -/
def RETRY_BASE_DELAY_MS : Nat := 5000

/-- Modelled from the spec (section 4.1, failure handling): given the number
of retries already used for a group, a processing failure either schedules the
next retry (the new retry count paired with its exponential backoff delay in
milliseconds) or, once the retries are exhausted, gives up (none). -/
def onProcessFailure (retriesUsed : Nat) : Option (Nat × Nat) :=
  if retriesUsed < MAX_RETRIES then
    some (retriesUsed + 1, RETRY_BASE_DELAY_MS * 2 ^ retriesUsed)
  else none

/-- Modelled from the spec: per-group lifecycle phase of the queue state
machine, tracking the retries already used while a run or a backoff wait is in
flight. -/
inductive GroupPhase where
  | idle
  | queued
  | running (retriesUsed : Nat)
  | waitingRetry (retriesUsed : Nat) (delayMs : Nat)
deriving Repr, DecidableEq

/-- Events driving the per-group lifecycle. -/
inductive GroupEvent where
  | inbound
  | start
  | finish (ok : Bool)
  | retryTimer
deriving Repr, DecidableEq

/-- Modelled from the spec (section 4.1): per-group transitions. New inbound
activity arms an idle group; a queued group starts with a fresh retry budget;
a successful run returns to idle; a failed run consults onProcessFailure and
either waits for the backoff delay or returns to idle for good; the backoff
timer re-runs the group. -/
inductive GroupStep : GroupPhase → GroupEvent → GroupPhase → Prop
  | inbound : GroupStep .idle .inbound .queued
  | start : GroupStep .queued .start (.running 0)
  | finishOk (r : Nat) : GroupStep (.running r) (.finish true) .idle
  | finishFailRetry (r next delay : Nat)
      (h : onProcessFailure r = some (next, delay)) :
      GroupStep (.running r) (.finish false) (.waitingRetry next delay)
  | finishFailGiveUp (r : Nat) (h : onProcessFailure r = none) :
      GroupStep (.running r) (.finish false) .idle
  | retryTimer (r d : Nat) : GroupStep (.waitingRetry r d) .retryTimer (.running r)

/-- Modelled from the spec: the live handle for a spawned sandboxed process,
keyed by group id; it carries the generated container name and the group
folder. -/
structure ActiveProcessInfo where
  containerName : String
  groupFolder : String
deriving Repr, DecidableEq

/-- Modelled from the spec: the per-group active-process map. -/
abbrev ProcessTable := List (String × ActiveProcessInfo)

/-- Lookup of the registered process for a group. -/
def lookupProcess (t : ProcessTable) (g : String) : Option ActiveProcessInfo :=
  match t.find? (fun e => e.fst == g) with
  | none => none
  | some e => some e.snd

/-- Modelled from the spec: registerProcess(group, handle, name, folder),
called by the runner once a process is live; it makes the group eligible for
message piping, replacing any stale entry for the same group. -/
def registerProcess (t : ProcessTable) (g : String) (info : ActiveProcessInfo) :
    ProcessTable :=
  (g, info) :: t.filter (fun e => !(e.fst == g))

/-- Modelled from the spec: the entry is removed when the process exits or is
stopped. -/
def removeProcess (t : ProcessTable) (g : String) : ProcessTable :=
  t.filter (fun e => !(e.fst == g))

/-- Modelled from the spec: sendMessage(group, text) delivers the text via the
control protocol and returns true when a process is registered for the group;
otherwise it returns false and delivers nothing. The delivery is modelled as
the group folder of the registered process paired with the text written. -/
def sendMessage (t : ProcessTable) (g text : String) :
    Bool × Option (String × String) :=
  match lookupProcess t g with
  | some info => (true, some (info.groupFolder, text))
  | none => (false, none)

/-- Action taken by the message loop for a batch of new messages of one group. -/
inductive DispatchAction where
  | piped (newCursor : String)
  | enqueuedCheck
deriving Repr, DecidableEq

/-- Translation of the piping branch of startMessageLoop (index.ts): when
sendMessage returns true the batch was piped to the active container and the
per-group cursor advances to the last piped timestamp; otherwise no container
is active and a fresh message check is enqueued instead. -/
def dispatchGroupMessages (t : ProcessTable) (g formatted lastTs : String) :
    DispatchAction :=
  if (sendMessage t g formatted).fst then .piped lastTs else .enqueuedCheck

/-- A stored chat message as fetched for the agent. -/
structure ChatMessage where
  sender : String
  content : String
  timestamp : String
deriving Repr, DecidableEq

/-- A registered group, restricted to the fields processGroupMessages reads. -/
structure RegisteredGroup where
  name : String
  folder : String
  requiresTrigger : Option Bool
deriving Repr, DecidableEq

/-- Translation of the config constant MAIN_GROUP_FOLDER. -/
def MAIN_GROUP_FOLDER : String := "main"

/-- One streamed container output event, restricted to the fields the result
callback of processGroupMessages reads. -/
structure ContainerOutput where
  result : Option String
  status : Option String
deriving Repr, DecidableEq

/-- Drop elements through the first occurrence of the pattern; none when the
pattern does not occur in the list. -/
def dropThroughTag (pat : List Char) : List Char → Option (List Char)
  | [] => none
  | c :: rest =>
    if pat.isPrefixOf (c :: rest) then some ((c :: rest).drop pat.length)
    else dropThroughTag pat rest

/-- Fueled scanner for the internal-block removal; the fuel is the input
length, which every step strictly consumes. -/
def stripInternalAux : Nat → List Char → List Char
  | 0, cs => cs
  | _, [] => []
  | fuel + 1, c :: rest =>
    if ("<internal>".data).isPrefixOf (c :: rest) then
      match dropThroughTag ("</internal>".data) ((c :: rest).drop 10) with
      | some rest2 => stripInternalAux fuel rest2
      | none => c :: stripInternalAux fuel rest
    else c :: stripInternalAux fuel rest

/-- Translation of the JS regex replace in the output callback of
processGroupMessages: each internal open tag is lazily matched to the nearest
following close tag and the whole block is removed; an open tag with no close
tag after it is left in place. -/
def stripInternal (s : String) : String :=
  String.mk (stripInternalAux s.data.length s.data)

/-- Translation of the streaming output callback of processGroupMessages: a
result event is surfaced to the user exactly when its text is nonempty after
stripping internal blocks and trimming. -/
def resultSurfaced (e : ContainerOutput) : Bool :=
  match e.result with
  | some raw => !(jsTrim (stripInternal raw) == "")
  | none => false

/-- Whether any streamed result was delivered to the user during the run. -/
def outputSentToUser (events : List ContainerOutput) : Bool :=
  events.any resultSurfaced

/-- Whether any streamed event carried an error status. -/
def sawErrorEvent (events : List ContainerOutput) : Bool :=
  events.any (fun e => e.status == some "error")

/-- Result of one processGroupMessages run: the success flag returned to the
queue and the per-group cursor (lastAgentTimestamp) after the run. -/
structure ProcessOutcome where
  ok : Bool
  cursor : String
deriving Repr, DecidableEq

/-- Translation of processGroupMessages (index.ts). The inputs record the
group-registration lookup, the per-group cursor before the run, the fetched
pending messages, the trigger predicate (TRIGGER_PATTERN.test on trimmed
content, abstracted as a predicate), whether a channel owns the chat id, the
streamed container events, and whether the container run itself reported an
error. Logging, typing indicators, snapshot writing, idle timers and session
tracking do not affect the returned flag or the cursor and are omitted. -/
def processGroupMessages (group : Option RegisteredGroup) (prevCursor : String)
    (missed : List ChatMessage) (triggerTest : String → Bool)
    (channelExists : Bool) (events : List ContainerOutput)
    (agentRunError : Bool) : ProcessOutcome :=
  match group with
  | none => ⟨true, prevCursor⟩
  | some g =>
    if missed.isEmpty then ⟨true, prevCursor⟩
    else if !(g.folder == MAIN_GROUP_FOLDER) && !(g.requiresTrigger == some false)
        && !(missed.any (fun m => triggerTest (jsTrim m.content))) then
      ⟨true, prevCursor⟩
    else
      if !channelExists then ⟨false, (missed.getLastD ⟨"", "", ""⟩).timestamp⟩
      else if agentRunError || sawErrorEvent events then
        if outputSentToUser events then ⟨true, (missed.getLastD ⟨"", "", ""⟩).timestamp⟩
        else ⟨false, prevCursor⟩
      else ⟨true, (missed.getLastD ⟨"", "", ""⟩).timestamp⟩

/-- Decimal digit character for a digit value. -/
def digitChar (d : Nat) : Char :=
  Char.ofNat (48 + d)

/-- Fueled big-endian decimal digits of a natural number. -/
def natDigitsAux : Nat → Nat → List Char
  | 0, _ => []
  | fuel + 1, n =>
    if n < 10 then [digitChar n]
    else natDigitsAux fuel (n / 10) ++ [digitChar (n % 10)]

/-- Decimal string of a natural number, model of the JS template-literal
stringification of Date.now(). -/
def natDecimal (n : Nat) : String :=
  String.mk (natDigitsAux (n + 1) n)

/-- Translation of the filename generated by writeIpcFile (ipc-utils):
epoch-millis, a dash, the random uuid, and the json suffix. -/
def ipcFilename (nowMs : Nat) (uuid : String) : String :=
  natDecimal nowMs ++ "-" ++ uuid ++ ".json"

/-- Translation of the temporary path writeIpcFile writes before the rename. -/
def ipcTempName (nowMs : Nat) (uuid : String) : String :=
  ipcFilename nowMs uuid ++ ".tmp"

/-- Observable phase of one writeIpcFile call: before any write, while the
temporary file holds some partially written content, and after the rename. -/
inductive WritePhase where
  | beforeWrite
  | tempWritten (written : List Char)
  | renamed (content : List Char)
deriving Repr, DecidableEq

/-- Directory contents as a concurrent reader observes them at each phase of
one writeIpcFile call (only the files of this writer are modelled). -/
def ipcDirView (nowMs : Nat) (uuid : String) :
    WritePhase → String → Option (List Char)
  | .beforeWrite, _ => none
  | .tempWritten w, name =>
    if name == ipcTempName nowMs uuid then some w else none
  | .renamed content, name =>
    if name == ipcFilename nowMs uuid then some content else none

/-- Translation of writeIpcFile as a sequence of filesystem effects: the
temporary file is created and filled (a non-atomic write may expose any prefix
of the payload), and only once it holds the full serialized payload is it
renamed to the final json name. -/
inductive IpcWriteStep (payload : List Char) : WritePhase → WritePhase → Prop
  | beginTemp : IpcWriteStep payload .beforeWrite (.tempWritten [])
  | appendTemp (w w2 : List Char) (h1 : w <+: w2) (h2 : w2 <+: payload) :
      IpcWriteStep payload (.tempWritten w) (.tempWritten w2)
  | renameTemp : IpcWriteStep payload (.tempWritten payload) (.renamed payload)

/-- Translation of writeIpcFile (ipc-utils): the returned filename and the
final directory view once the atomic write completes. -/
def writeIpcFile (nowMs : Nat) (uuid : String) (payload : List Char) :
    String × (String → Option (List Char)) :=
  (ipcFilename nowMs uuid, ipcDirView nowMs uuid (.renamed payload))

/-- Concrete allowlist used to instantiate witness theorems: one read-write
root, one read-only root, one blocked pattern, nonMainReadOnly set. -/
def wAllowlist : MountAllowlist :=
  ⟨[⟨"/tmp/allowed", true, "rw root"⟩, ⟨"/tmp/ro", false, "ro root"⟩], ["secret"], true⟩

/-- Concrete realpath oracle used to instantiate witness theorems: a small
filesystem in which the listed paths exist and resolve to themselves. -/
def wRealpath : String → Option String := fun s =>
  if s == "/tmp/allowed" || s == "/tmp/allowed/x" || s == "/tmp/ro" || s == "/tmp/ro/y"
  then some s else none

end NanoClaw

namespace NanoClaw

/-- C1: if the mount allowlist fails to load (loadMountAllowlist returned null,
modelled by the allowlist argument none), then for every realpath oracle, every
list of requested additional mounts, every group folder and every isMain flag,
validateAdditionalMounts returns the empty accepted list: every requested mount
for every group is denied. -/
theorem c1_allowlist_unavailable_fail_closed :
    ∀ (realpath : String → Option String) (mounts : List MountRequest)
      (groupFolder : String) (isMain : Bool),
      validateAdditionalMounts none realpath mounts groupFolder isMain = [] := by
  intro realpath mounts groupFolder isMain
  rfl

/-- C2: validateMount rejects, with a human-readable reason, any container path
that (after trimming) contains a dot-dot path segment, begins with a slash, or
is blank while the raw path is nonempty; and a request whose container path is
the empty string is accepted with resolvedContainerPath equal to the basename
of the host path. -/
theorem c2_validateMount_container_path_rules (req : MountRequest) (isMain : Bool) :
    (((slashSegments (jsTrim req.containerPath)).contains ".." = true →
        (validateMount req isMain).allowed = false ∧
        (validateMount req isMain).reason ≠ none)
  ∧ (strStartsWith (jsTrim req.containerPath) "/" = true →
        (validateMount req isMain).allowed = false ∧
        (validateMount req isMain).reason ≠ none)
  ∧ (req.containerPath ≠ "" → jsTrim req.containerPath = "" →
        (validateMount req isMain).allowed = false ∧
        (validateMount req isMain).reason ≠ none)
  ∧ (req.containerPath = "" →
        (validateMount req isMain).allowed = true ∧
        (validateMount req isMain).resolvedContainerPath
          = some (basename req.hostPath))) := by
  refine ⟨?_, ?_, ?_, ?_⟩
  · intro h
    unfold validateMount
    split_ifs with h1 h2 h3
    · rw [h1] at h
      exact absurd h (by decide)
    · rw [h2] at h
      exact absurd h (by decide)
    · exact ⟨rfl, by simp⟩
    · exact ⟨rfl, by simp⟩
  · intro h
    unfold validateMount
    split_ifs with h1 h2 h3
    · rw [h1] at h
      exact absurd h (by decide)
    · rw [h2] at h
      exact absurd h (by decide)
    · exact ⟨rfl, by simp⟩
  · intro hne htrim
    unfold validateMount
    split_ifs with h1
    · exact absurd h1 hne
    · exact ⟨rfl, by simp⟩
  · intro h
    unfold validateMount
    split_ifs
    exact ⟨rfl, rfl⟩

/-- C2 witness: the four rules of the theorem instantiated at concrete
requests, matching the unit tests and Scenario A of the spec. -/
theorem c2_witness :
    ((validateMount ⟨"/tmp/allowed/x", "../escape", false⟩ true).allowed = false
  ∧ (validateMount ⟨"/tmp/allowed/x", "/absolute/path", true⟩ true).allowed = false
  ∧ (validateMount ⟨"/tmp/allowed/x", "   ", true⟩ true).allowed = false
  ∧ (validateMount ⟨"/tmp/allowed/notes.txt", "", false⟩ false).resolvedContainerPath
      = some "notes.txt") := by
  refine ⟨?_, ?_, ?_, ?_⟩
  · exact ((c2_validateMount_container_path_rules
      ⟨"/tmp/allowed/x", "../escape", false⟩ true).1 (by decide)).1
  · exact ((c2_validateMount_container_path_rules
      ⟨"/tmp/allowed/x", "/absolute/path", true⟩ true).2.1 (by decide)).1
  · exact ((c2_validateMount_container_path_rules
      ⟨"/tmp/allowed/x", "   ", true⟩ true).2.2.1 (by decide) (by decide)).1
  · have h := (c2_validateMount_container_path_rules
      ⟨"/tmp/allowed/notes.txt", "", false⟩ false).2.2.2 rfl
    exact h.2.trans (by decide)

/-- Helper: any accepted additional mount has its readonly flag equal to the
disjunction of the requested flag, the matched root disallowing read-write,
and the non-main read-only forcing. -/
theorem validateOneMount_readonly_eq (al : MountAllowlist)
    (realpath : String → Option String) (req : MountRequest) (isMain : Bool)
    (r : ResolvedMount) (h : validateOneMount al realpath req isMain = some r) :
    ∃ rp root, realpath req.hostPath = some rp
      ∧ matchedRoot al realpath rp = some root
      ∧ r.readonly = (req.readonly || !root.allowReadWrite
          || (!isMain && al.nonMainReadOnly)) := by
  unfold validateOneMount at h
  split at h
  · exact Option.noConfusion h
  · rename_i rp hrp
    split at h
    · exact Option.noConfusion h
    · split at h
      · exact Option.noConfusion h
      · rename_i root hroot
        split at h
        · split at h
          · rename_i rcp hrcp
            refine ⟨rp, root, hrp, hroot, ?_⟩
            rw [← Option.some.inj h]
          · exact Option.noConfusion h
        · exact Option.noConfusion h

/-- C3: every mount accepted by validateAdditionalMounts for a non-main group
under an allowlist with nonMainReadOnly set has readonly true, regardless of
the requested readonly value; and readonly is likewise forced to true whenever
the matched allowed root has allowReadWrite false, even for the main group. -/
theorem c3_readonly_forced (al : MountAllowlist)
    (realpath : String → Option String) :
    ((al.nonMainReadOnly = true →
        ∀ (mounts : List MountRequest) (groupFolder : String) (r : ResolvedMount),
          r ∈ validateAdditionalMounts (some al) realpath mounts groupFolder false →
          r.readonly = true)
  ∧ (∀ (req : MountRequest) (isMain : Bool) (rp : String) (root : AllowedRoot)
        (r : ResolvedMount),
        realpath req.hostPath = some rp →
        matchedRoot al realpath rp = some root →
        root.allowReadWrite = false →
        validateOneMount al realpath req isMain = some r →
        r.readonly = true)) := by
  constructor
  · intro hnm mounts groupFolder r hr
    unfold validateAdditionalMounts at hr
    obtain ⟨m, _, hv⟩ := List.mem_filterMap.mp hr
    obtain ⟨rp, root, _, _, heq⟩ := validateOneMount_readonly_eq al realpath m false r hv
    rw [heq, hnm]
    simp
  · intro req isMain rp root r h1 h2 h3 h4
    obtain ⟨rp2, root2, hrp2, hroot2, heq⟩ :=
      validateOneMount_readonly_eq al realpath req isMain r h4
    rw [h1] at hrp2
    have hrpe : rp = rp2 := Option.some.inj hrp2
    rw [← hrpe] at hroot2
    rw [h2] at hroot2
    have hroote : root = root2 := Option.some.inj hroot2
    rw [heq, ← hroote, h3]
    simp

/-- C3 witness: concrete instantiations of both readonly-forcing rules on the
witness allowlist and filesystem. -/
theorem c3_witness :
    ((⟨"/tmp/allowed/x", "/workspace/extra/data", true⟩ : ResolvedMount) ∈
        validateAdditionalMounts (some wAllowlist) wRealpath
          [⟨"/tmp/allowed/x", "data", false⟩] "g" false
  ∧ (⟨"/tmp/allowed/x", "/workspace/extra/data", true⟩ : ResolvedMount).readonly = true
  ∧ (⟨"/tmp/ro/y", "/workspace/extra/docs", true⟩ : ResolvedMount).readonly = true) := by
  refine ⟨by decide, ?_, ?_⟩
  · exact (c3_readonly_forced wAllowlist wRealpath).1 rfl
      [⟨"/tmp/allowed/x", "data", false⟩] "g"
      ⟨"/tmp/allowed/x", "/workspace/extra/data", true⟩ (by decide)
  · exact (c3_readonly_forced wAllowlist wRealpath).2
      ⟨"/tmp/ro/y", "docs", false⟩ true "/tmp/ro/y" ⟨"/tmp/ro", false, "ro root"⟩
      ⟨"/tmp/ro/y", "/workspace/extra/docs", true⟩ (by decide) (by decide) rfl (by decide)

/-- C4: loadMountAllowlist returns none when the allowlist file is absent, and
its result (success or null) is cached for the process lifetime: for every
pair of calls, the second call returns the same result as the first and
performs no filesystem access, whatever the file state at the second call. -/
theorem c4_loadMountAllowlist_absent_and_cached :
    ((loadMountAllowlist .absent initialAllowlistCache).result = none)
  ∧ (∀ (f1 f2 : AllowlistFile) (st : AllowlistCache),
      (loadMountAllowlist f2 (loadMountAllowlist f1 st).state).result
          = (loadMountAllowlist f1 st).result
      ∧ (loadMountAllowlist f2 (loadMountAllowlist f1 st).state).fsAccessed = false) := by
  refine ⟨rfl, ?_⟩
  intro f1 f2 st
  by_cases h : st.attempted
  · simp [loadMountAllowlist, h]
  · simp [loadMountAllowlist, h]

/-- Helper: the semaphore bound is an invariant of every queue step sequence. -/
theorem queueReachable_running_le (cap : Nat) (s : QueueState)
    (h : QueueReachable cap s) : s.running.length ≤ cap := by
  induction h with
  | refl => simp [initQueue]
  | tail _ hstep ih =>
    cases hstep with
    | enqueue g => simpa using ih
    | start g hmem hnot hcap => simpa using hcap
    | finish g hmem =>
      exact le_trans (List.Sublist.length_le (List.erase_sublist _ _)) ih

/-- C5: in every reachable state of the group-queue step relation the number
of concurrently active sandboxed processes is at most the configured cap
MAX_CONCURRENT_CONTAINERS; and the cap is at least 1 for every environment
value and defaults to 5 when the environment variable is unset. -/
theorem c5_concurrency_cap (env : Option String) :
    ((∀ s : QueueState,
        QueueReachable (maxConcurrentContainers env).toNat s →
        s.running.length ≤ (maxConcurrentContainers env).toNat)
  ∧ 1 ≤ maxConcurrentContainers env
  ∧ maxConcurrentContainers none = 5) := by
  refine ⟨fun s h => queueReachable_running_le _ s h, ?_, by decide⟩
  unfold maxConcurrentContainers
  exact le_max_left 1 _

/-- C5 witness: a concrete reachable state with one running process respects
the default cap. -/
theorem c5_witness :
    QueueReachable (maxConcurrentContainers none).toNat ⟨[], ["g"]⟩
  ∧ (QueueState.mk [] ["g"]).running.length
      ≤ (maxConcurrentContainers none).toNat := by
  have h1 : QueueStep (maxConcurrentContainers none).toNat initQueue ⟨["g"], []⟩ :=
    QueueStep.enqueue initQueue "g"
  have h2 : QueueStep (maxConcurrentContainers none).toNat ⟨["g"], []⟩ ⟨[], ["g"]⟩ := by
    have h3 : QueueStep (maxConcurrentContainers none).toNat ⟨["g"], []⟩
        ⟨(["g"] : List String).erase "g", ["g"]⟩ :=
      QueueStep.start ⟨["g"], []⟩ "g" (by simp) (by simp) (by decide)
    simpa using h3
  have hreach : QueueReachable (maxConcurrentContainers none).toNat ⟨[], ["g"]⟩ :=
    Relation.ReflTransGen.tail (Relation.ReflTransGen.single h1) h2
  exact ⟨hreach, (c5_concurrency_cap none).1 _ hreach⟩

/-- C6: a failing group is retried with exponential backoff: the five retry
delays are 5s, 10s, 20s, 40s and 80s; after the fifth failed retry no further
attempt is scheduled and the group is left idle; from idle only new inbound
activity re-arms the queue. -/
theorem c6_retry_backoff :
    (((List.range MAX_RETRIES).map
        (fun r => RETRY_BASE_DELAY_MS * 2 ^ r))
        = [5000, 10000, 20000, 40000, 80000]
  ∧ (∀ (r : Nat) (p : GroupPhase), r < MAX_RETRIES →
        GroupStep (.running r) (.finish false) p →
        p = .waitingRetry (r + 1) (RETRY_BASE_DELAY_MS * 2 ^ r))
  ∧ (∀ p : GroupPhase,
        GroupStep (.running MAX_RETRIES) (.finish false) p → p = .idle)
  ∧ (∀ (e : GroupEvent) (p : GroupPhase),
        GroupStep .idle e p → e = .inbound ∧ p = .queued)) := by
  refine ⟨by decide, ?_, ?_, ?_⟩
  · intro r p hr hstep
    cases hstep with
    | finishFailRetry r next delay h =>
      unfold onProcessFailure at h
      rw [if_pos hr] at h
      injection h with h2
      injection h2 with ha hb
      rw [← ha, ← hb]
    | finishFailGiveUp r h =>
      unfold onProcessFailure at h
      rw [if_pos hr] at h
      exact Option.noConfusion h
  · intro p hstep
    cases hstep with
    | finishFailRetry r next delay h =>
      unfold onProcessFailure at h
      rw [if_neg (lt_irrefl MAX_RETRIES)] at h
      exact Option.noConfusion h
    | finishFailGiveUp r h => rfl
  · intro e p hstep
    cases hstep with
    | inbound => exact ⟨rfl, rfl⟩

/-- C6 witness: the first failure schedules a 5s retry, the failure after the
fifth retry schedules nothing and idles the group, and an inbound event
re-arms an idle group. -/
theorem c6_witness :
    (GroupPhase.waitingRetry 1 5000 = .waitingRetry (0 + 1) (RETRY_BASE_DELAY_MS * 2 ^ 0)
  ∧ GroupPhase.idle = .idle
  ∧ (GroupEvent.inbound = .inbound ∧ GroupPhase.queued = .queued)) := by
  refine ⟨?_, ?_, ?_⟩
  · exact (c6_retry_backoff.2.1 0 (.waitingRetry 1 5000) (by decide)
      (GroupStep.finishFailRetry 0 1 5000 (by decide))).symm.symm
  · exact c6_retry_backoff.2.2.1 .idle (GroupStep.finishFailGiveUp MAX_RETRIES (by decide))
  · exact c6_retry_backoff.2.2.2 .inbound .queued GroupStep.inbound

/-- C7: sendMessage(group, text) returns false (delivering nothing) when no
process is registered for the group, in which case the message loop enqueues a
fresh message check; once registerProcess has been called for the group and
the process has not been removed, it returns true and delivers the text via
the control protocol to the process group folder; after the process entry is
removed (process closed) it returns false again. -/
theorem c7_sendMessage_piping (t : ProcessTable) (g text : String) :
    ((lookupProcess t g = none →
        (sendMessage t g text).fst = false
        ∧ (sendMessage t g text).snd = none
        ∧ ∀ lastTs, dispatchGroupMessages t g text lastTs = .enqueuedCheck)
  ∧ (∀ info : ActiveProcessInfo,
        (sendMessage (registerProcess t g info) g text).fst = true
        ∧ (sendMessage (registerProcess t g info) g text).snd
            = some (info.groupFolder, text))
  ∧ ((sendMessage (removeProcess t g) g text).fst = false)) := by
  refine ⟨?_, ?_, ?_⟩
  · intro h
    refine ⟨?_, ?_, ?_⟩
    · simp [sendMessage, h]
    · simp [sendMessage, h]
    · intro lastTs
      simp [dispatchGroupMessages, sendMessage, h]
  · intro info
    constructor
    · simp [sendMessage, lookupProcess, registerProcess]
    · simp [sendMessage, lookupProcess, registerProcess]
  · have h : lookupProcess (removeProcess t g) g = none := by
      unfold lookupProcess removeProcess
      cases hf : (t.filter (fun e => !(e.fst == g))).find? (fun e => e.fst == g) with
      | none => rfl
      | some e =>
        have hmem := List.mem_of_find?_eq_some hf
        have hp := List.find?_some hf
        have hfilter := List.of_mem_filter hmem
        rw [hp] at hfilter
        exact absurd hfilter (by decide)
    simp [sendMessage, h]

/-- C7 witness: with an empty table sendMessage returns false and the loop
enqueues a check; after registering a process for the group it returns true
and delivers to that process folder. -/
theorem c7_witness :
    ((sendMessage ([] : ProcessTable) "grp" "hello").fst = false
  ∧ dispatchGroupMessages ([] : ProcessTable) "grp" "hello" "t9" = .enqueuedCheck
  ∧ (sendMessage (registerProcess ([] : ProcessTable) "grp" ⟨"nanoclaw-1", "fold"⟩)
        "grp" "hello").snd = some ("fold", "hello")) := by
  refine ⟨?_, ?_, ?_⟩
  · exact ((c7_sendMessage_piping ([] : ProcessTable) "grp" "hello").1 rfl).1
  · exact ((c7_sendMessage_piping ([] : ProcessTable) "grp" "hello").1 rfl).2.2 "t9"
  · exact ((c7_sendMessage_piping ([] : ProcessTable) "grp" "hello").2.1
      ⟨"nanoclaw-1", "fold"⟩).2

/-- C8: on a failed container run (error status or an error event), if no
output was delivered to the user during the run the per-group cursor is rolled
back to its pre-run value and the run reports failure, so the same messages
are re-fetched on the next attempt; if any output was already delivered the
cursor is not rolled back and stays at the last processed message timestamp. -/
theorem c8_cursor_rollback (g : RegisteredGroup) (prevCursor : String)
    (missed : List ChatMessage) (triggerTest : String → Bool)
    (events : List ContainerOutput) (agentRunError : Bool)
    (hne : missed.isEmpty = false)
    (hrun : (!(g.folder == MAIN_GROUP_FOLDER) && !(g.requiresTrigger == some false)
        && !(missed.any (fun m => triggerTest (jsTrim m.content)))) = false)
    (herr : (agentRunError || sawErrorEvent events) = true) :
    ((outputSentToUser events = false →
        processGroupMessages (some g) prevCursor missed triggerTest true events
          agentRunError = ⟨false, prevCursor⟩)
  ∧ (outputSentToUser events = true →
        processGroupMessages (some g) prevCursor missed triggerTest true events
          agentRunError = ⟨true, (missed.getLastD ⟨"", "", ""⟩).timestamp⟩)) := by
  constructor
  · intro hsent
    simp only [processGroupMessages, hne, hrun, herr, hsent]
    simp
  · intro hsent
    simp only [processGroupMessages, hne, hrun, herr, hsent]
    simp

/-- C8 witness: a failing run with no surfaced output rolls the cursor back to
the pre-run value; a failing run after a surfaced result keeps the advanced
cursor. -/
theorem c8_witness :
    (processGroupMessages (some ⟨"G", "main", none⟩) "prev"
        [⟨"alice", "hi", "t1"⟩] (fun _ => false) true [] true
        = ⟨false, "prev"⟩
  ∧ processGroupMessages (some ⟨"G", "main", none⟩) "prev"
        [⟨"alice", "hi", "t1"⟩] (fun _ => false) true
        [⟨some "hello", some "error"⟩] false
        = ⟨true, "t1"⟩) := by
  constructor
  · exact (c8_cursor_rollback ⟨"G", "main", none⟩ "prev" [⟨"alice", "hi", "t1"⟩]
      (fun _ => false) [] true (by decide) (by decide) (by decide)).1 (by decide)
  · have h := (c8_cursor_rollback ⟨"G", "main", none⟩ "prev" [⟨"alice", "hi", "t1"⟩]
      (fun _ => false) [⟨some "hello", some "error"⟩] false (by decide) (by decide)
      (by decide)).2 (by decide)
    exact h.trans (by decide)

/-- C10: a container run that reports an error (error status or an error
event) but during which at least one result was already delivered to the user
counts as a success to the queue: processGroupMessages returns true, skipping
the failure-handling path entirely, so no retry or backoff is scheduled for
that batch. -/
theorem c10_error_after_output_is_success (group : Option RegisteredGroup)
    (prevCursor : String) (missed : List ChatMessage)
    (triggerTest : String → Bool) (events : List ContainerOutput)
    (agentRunError : Bool)
    (herr : (agentRunError || sawErrorEvent events) = true)
    (hsent : outputSentToUser events = true) :
    (processGroupMessages group prevCursor missed triggerTest true events
      agentRunError).ok = true := by
  cases group with
  | none => rfl
  | some g =>
    unfold processGroupMessages
    by_cases hne : missed.isEmpty = true
    · simp [hne]
    · by_cases hrun : (!(g.folder == MAIN_GROUP_FOLDER)
          && !(g.requiresTrigger == some false)
          && !(missed.any (fun m => triggerTest (jsTrim m.content)))) = true
      · simp [hne, hrun]
      · simp [hne, hrun, herr, hsent]

/-- Helper: string append acts as list append on the character data. -/
theorem strData_append (s t : String) : (s ++ t).data = s.data ++ t.data :=
  rfl

/-- Helper: the fueled digit function is independent of the fuel once the fuel
exceeds the number. -/
theorem natDigitsAux_fuel_irrel :
    ∀ (f1 f2 n : Nat), n < f1 → n < f2 →
      natDigitsAux f1 n = natDigitsAux f2 n := by
  intro f1
  induction f1 with
  | zero => intro f2 n h1 _; exact absurd h1 (Nat.not_lt_zero n)
  | succ f ih =>
    intro f2 n h1 h2
    cases f2 with
    | zero => exact absurd h2 (Nat.not_lt_zero n)
    | succ f2p =>
      by_cases h10 : n < 10
      · unfold natDigitsAux
        rw [if_pos h10, if_pos h10]
      · unfold natDigitsAux
        rw [if_neg h10, if_neg h10]
        have hd1 : n / 10 < f := by omega
        have hd2 : n / 10 < f2p := by omega
        rw [ih f2p (n / 10) hd1 hd2]

/-- Helper: within fuel, the digit list of a number is never empty. -/
theorem natDigitsAux_ne_nil (f n : Nat) (h : n < f) : natDigitsAux f n ≠ [] := by
  cases f with
  | zero => exact absurd h (Nat.not_lt_zero n)
  | succ f =>
    unfold natDigitsAux
    by_cases h10 : n < 10
    · rw [if_pos h10]
      simp
    · rw [if_neg h10]
      simp

/-- Helper: decimal digit characters are ordered like their digit values. -/
theorem digitChar_lt_digitChar {a b : Nat} (hb : b ≤ 9) (hab : a < b) :
    digitChar a < digitChar b := by
  have ha : a ≤ 8 := by omega
  interval_cases a <;> interval_cases b <;> decide

/-- Helper: a lexicographic comparison is preserved under a common prefix. -/
theorem lex_append_left (P : List Char) :
    ∀ u v, List.Lex (· < ·) u v → List.Lex (· < ·) (P ++ u) (P ++ v) := by
  induction P with
  | nil => intro u v h; simpa using h
  | cons c P ih => intro u v h; exact List.Lex.cons (ih u v h)

/-- Helper: equal-width decimal digit strings compare lexicographically like
the numbers they denote, whatever suffixes follow them. -/
theorem natDigitsAux_lex (f : Nat) :
    ∀ a b, a < f → b < f → a < b →
      (natDigitsAux f a).length = (natDigitsAux f b).length →
      ∀ x y, List.Lex (· < ·) (natDigitsAux f a ++ x) (natDigitsAux f b ++ y) := by
  induction f with
  | zero => intro a b h1 _ _ _ _ _; exact absurd h1 (Nat.not_lt_zero a)
  | succ f ih =>
    intro a b ha hb hab hlen x y
    by_cases ha10 : a < 10
    · by_cases hb10 : b < 10
      · unfold natDigitsAux
        rw [if_pos ha10, if_pos hb10]
        exact List.Lex.rel (digitChar_lt_digitChar (by omega) hab)
      · exfalso
        unfold natDigitsAux at hlen
        rw [if_pos ha10, if_neg hb10] at hlen
        have hnn := natDigitsAux_ne_nil f (b / 10) (by omega)
        have hpos : 0 < (natDigitsAux f (b / 10)).length :=
          List.length_pos.mpr hnn
        rw [List.length_append] at hlen
        simp only [List.length_singleton] at hlen
        omega
    · have hb10 : ¬ b < 10 := by omega
      have hda : a / 10 < f := by omega
      have hdb : b / 10 < f := by omega
      unfold natDigitsAux at hlen ⊢
      rw [if_neg ha10, if_neg hb10] at hlen ⊢
      rw [List.length_append, List.length_append] at hlen
      have hlen2 : (natDigitsAux f (a / 10)).length
          = (natDigitsAux f (b / 10)).length := by simpa using hlen
      rcases Nat.lt_or_ge (a / 10) (b / 10) with hdiv | hdiv
      · have h2 := ih (a / 10) (b / 10) hda hdb hdiv hlen2
          ([digitChar (a % 10)] ++ x) ([digitChar (b % 10)] ++ y)
        simpa [List.append_assoc] using h2
      · have hdiveq : a / 10 = b / 10 := by omega
        have hmod : a % 10 < b % 10 := by omega
        rw [hdiveq]
        have hlex : List.Lex (· < ·) ([digitChar (a % 10)] ++ x)
            ([digitChar (b % 10)] ++ y) :=
          List.Lex.rel (digitChar_lt_digitChar (by omega) hmod)
        have h2 := lex_append_left (natDigitsAux f (b / 10)) _ _ hlex
        simpa [List.append_assoc] using h2

/-- Helper: filenames generated from equal-width increasing timestamps sort
lexicographically in timestamp order, whatever the uuids are. -/
theorem ipcFilename_lt_of_lt (t1 t2 : Nat) (u1 u2 : String) (h : t1 < t2)
    (hlen : (natDecimal t1).length = (natDecimal t2).length) :
    ipcFilename t1 u1 < ipcFilename t2 u2 := by
  rw [String.lt_iff_toList_lt]
  have hdata : ∀ (t : Nat) (u : String),
      (ipcFilename t u).toList
        = natDigitsAux (t + 1) t ++ ("-" ++ u ++ ".json").toList := by
    intro t u
    show (ipcFilename t u).data = _
    simp only [ipcFilename, natDecimal, strData_append, List.append_assoc]
    rfl
  rw [hdata, hdata]
  show List.Lex (· < ·) _ _
  have hirr1 := natDigitsAux_fuel_irrel (t1 + 1) (max (t1 + 1) (t2 + 1)) t1
    (by omega) (by omega)
  have hirr2 := natDigitsAux_fuel_irrel (t2 + 1) (max (t1 + 1) (t2 + 1)) t2
    (by omega) (by omega)
  rw [hirr1, hirr2]
  have hlenL : (natDigitsAux (t1 + 1) t1).length
      = (natDigitsAux (t2 + 1) t2).length := hlen
  apply natDigitsAux_lex (max (t1 + 1) (t2 + 1)) t1 t2 (by omega) (by omega) h
  rw [← hirr1, ← hirr2]
  exact hlenL

/-- Helper: the phases reachable during one writeIpcFile call are the initial
phase, a temporary file holding a prefix of the payload, and the renamed file
holding the full payload. -/
theorem ipcWrite_reachable_cases (payload : List Char) (p : WritePhase)
    (h : Relation.ReflTransGen (IpcWriteStep payload) .beforeWrite p) :
    p = .beforeWrite ∨ (∃ w, p = .tempWritten w ∧ w <+: payload)
      ∨ p = .renamed payload := by
  induction h with
  | refl => exact Or.inl rfl
  | tail _ hstep _ =>
    cases hstep with
    | beginTemp => exact Or.inr (Or.inl ⟨[], rfl, List.nil_prefix⟩)
    | appendTemp w w2 h1 h2 => exact Or.inr (Or.inl ⟨w2, rfl, h2⟩)
    | renameTemp => exact Or.inr (Or.inr rfl)

/-- Helper: the final json filename differs from the temporary filename. -/
theorem ipcFilename_ne_tempName (nowMs : Nat) (uuid : String) :
    (ipcFilename nowMs uuid == ipcTempName nowMs uuid) = false := by
  apply beq_eq_false_iff_ne.mpr
  intro hcontra
  have hlen := congrArg String.length hcontra
  rw [ipcTempName, String.length_append] at hlen
  have h4 : ".tmp".length = 4 := rfl
  omega

/-- C9: writeIpcFile names the file epoch-millis dash uuid dot json, writes
the full JSON payload to a temporary path and only then renames it to that
final name; a concurrent reader of the final name therefore never observes a
partially written file at any phase of the write; and filenames of successive
writes with increasing timestamps of equal decimal width sort
chronologically. -/
theorem c9_writeIpcFile_atomic_ordered (nowMs : Nat) (uuid : String)
    (payload : List Char) :
    ((writeIpcFile nowMs uuid payload).fst
        = natDecimal nowMs ++ "-" ++ uuid ++ ".json"
  ∧ (∀ p : WritePhase,
        Relation.ReflTransGen (IpcWriteStep payload) .beforeWrite p →
        ipcDirView nowMs uuid p (ipcFilename nowMs uuid) = none
          ∨ ipcDirView nowMs uuid p (ipcFilename nowMs uuid) = some payload)
  ∧ (writeIpcFile nowMs uuid payload).snd (ipcFilename nowMs uuid) = some payload
  ∧ (∀ (t1 t2 : Nat) (u1 u2 : String), t1 < t2 →
        (natDecimal t1).length = (natDecimal t2).length →
        ipcFilename t1 u1 < ipcFilename t2 u2)) := by
  refine ⟨rfl, ?_, ?_, ?_⟩
  · intro p hp
    rcases ipcWrite_reachable_cases payload p hp with rfl | ⟨w, rfl, hw⟩ | rfl
    · exact Or.inl rfl
    · left
      simp [ipcDirView, ipcFilename_ne_tempName]
    · right
      simp [ipcDirView]
  · simp [writeIpcFile, ipcDirView]
  · intro t1 t2 u1 u2 h hlen
    exact ipcFilename_lt_of_lt t1 t2 u1 u2 h hlen

/-- C9 witness: a concrete complete write of a two-character payload is
reachable, the reader of the final name sees the full payload, and the
filename at timestamp 10 sorts before the filename at timestamp 11. -/
theorem c9_witness :
    ((ipcDirView 10 "u" (.renamed ("ab".data)) (ipcFilename 10 "u") = none
        ∨ ipcDirView 10 "u" (.renamed ("ab".data)) (ipcFilename 10 "u")
            = some ("ab".data))
  ∧ ipcFilename 10 "u1" < ipcFilename 11 "u2") := by
  constructor
  · have hsteps : Relation.ReflTransGen (IpcWriteStep ("ab".data))
        .beforeWrite (.renamed ("ab".data)) := by
      refine Relation.ReflTransGen.tail (Relation.ReflTransGen.tail
        (Relation.ReflTransGen.single IpcWriteStep.beginTemp) ?_)
        IpcWriteStep.renameTemp
      exact IpcWriteStep.appendTemp [] ("ab".data) (List.nil_prefix)
        (List.prefix_refl _)
    exact (c9_writeIpcFile_atomic_ordered 10 "u" ("ab".data)).2.1
      (.renamed ("ab".data)) hsteps
  · exact (c9_writeIpcFile_atomic_ordered 0 "" []).2.2.2 10 11 "u1" "u2"
      (by decide) (by decide)

/-- C10 witness: an error event after a surfaced result still reports success. -/
theorem c10_witness :
    (processGroupMessages (some ⟨"G", "grp", none⟩) "prev"
        [⟨"bob", "@Andy do it", "t3"⟩] (fun _ => true) true
        [⟨some "done", none⟩, ⟨none, some "error"⟩] false).ok = true :=
  c10_error_after_output_is_success (some ⟨"G", "grp", none⟩) "prev"
    [⟨"bob", "@Andy do it", "t3"⟩] (fun _ => true)
    [⟨some "done", none⟩, ⟨none, some "error"⟩] false (by decide) (by decide)

end NanoClaw
